import Mathlib

set_option autoImplicit false

/-
Shallow embedding of src/main.rs of the microsynth repository: a note
synthesizer for a microcontroller board, driven by two button edge
channels (GPIOTE), a periodic timer (RTC0) and an accelerometer sampling
loop. The mutable globals of the source (lines 36 to 41) become a state
record; the three handlers become pure transition functions on it.
Machine arithmetic conventions of the source: the Rust operators / and %
on i32 truncate toward zero, embedded as Int.tdiv and Int.tmod; f32
values (the pitch bend and the frequency) are idealized as exact
rationals, which is faithful for every quantity the claims touch, and
the frequency claims are stated up to an explicit relative tolerance.
-/

/-- Constant a of line 30, the f32 literal 1.059463094359 (an approximation
of the twelfth root of two), idealized as the exact rational it denotes. -/
def a : ℚ := 1059463094359 / 1000000000000

/-- Degree computation inlined in steps_to_note (lines 59 to 65): the
truncated remainder of the step count by 7, negated when it is negative. -/
def stepDegree (steps : ℤ) : ℤ :=
  let s := Int.tmod steps 7
  if s < 0 then s * -1 else s

/-- Minor arm of the match in steps_to_note (lines 70 to 80): scale position
to semitone offset. The catch-all arm panics in the source and is embedded
as none. -/
def minorNote (steps : ℤ) : Option ℤ :=
  if steps = 0 then some 0
  else if steps = 1 then some 2
  else if steps = 2 then some 3
  else if steps = 3 then some 5
  else if steps = 4 then some 7
  else if steps = 5 then some 8
  else if steps = 6 then some 10
  else if steps = 7 then some 12
  else none

/-- Major arm of the match in steps_to_note (lines 83 to 93): scale position
to semitone offset. The catch-all arm panics in the source and is embedded
as none. -/
def majorNote (steps : ℤ) : Option ℤ :=
  if steps = 0 then some 0
  else if steps = 1 then some 2
  else if steps = 2 then some 4
  else if steps = 3 then some 5
  else if steps = 4 then some 7
  else if steps = 5 then some 9
  else if steps = 6 then some 11
  else if steps = 7 then some 12
  else none

/-- steps_to_note (lines 57 to 98) as a pure function: from the STEPS value
and the USE_MINOR_SCALE flag to the pair (NOTE, OCTAVE) it writes. The
octave is the truncated quotient of the steps by 7 (line 60); the note is
the table value at the degree. A panic of the source is none here. -/
def steps_to_note (steps : ℤ) (use_minor_scale : Bool) : Option (ℤ × ℤ) :=
  let octave := Int.tdiv steps 7
  let noteOpt := if use_minor_scale then minorNote (stepDegree steps) else majorNote (stepDegree steps)
  noteOpt.map (fun note => (note, octave))

/-- Frequency formula of note_to_freq (lines 44 to 55) at an integer
semitone exponent: 440 * a ^ e. The source computes
440 * powf a (note + 12 * octave + 2 * pitch_bend) in f32; powf is
idealized as exact exponentiation. Every frequency claim fixes
pitch_bend = 0, where the exponent is the integer note + 12 * octave and
the idealized value stays inside the rationals. -/
def freq_at (e : ℤ) : ℚ := 440 * a ^ e

/-- Composite of steps_to_note and note_to_freq at pitch_bend = 0: the
synthesize(step_count, 0, mode) map of the specification, as the source
computes it. -/
def synthesize0 (steps : ℤ) (use_minor_scale : Bool) : Option ℚ :=
  (steps_to_note steps use_minor_scale).map (fun p => freq_at (p.1 + 12 * p.2))

/-- The mutable globals of lines 37 to 41 that the handlers read or write:
PITCH_BEND, STEPS, NOTE, OCTAVE, USE_MINOR_SCALE. The FREQUENCY global of
line 36 is neither read nor written by any handler and is omitted. -/
structure SynthState where
  pitch_bend : ℚ
  steps : ℤ
  note : ℤ
  octave : ℤ
  use_minor_scale : Bool

/-- State at the start of the program, from the static declarations of
lines 37 to 41. -/
def initState : SynthState :=
  { pitch_bend := 0, steps := 0, note := 0, octave := 0, use_minor_scale := true }

/-- Effects of the GPIOTE handler on the hardware: both channel event flags
are cleared (lines 117 and 118). -/
structure EdgeOut where
  channel0_cleared : Bool
  channel1_cleared : Bool

/-- The GPIOTE edge interrupt handler (lines 101 to 121): from the two
channel trigger flags, STEPS is incremented when only channel 0 (button A)
triggered, decremented when only channel 1 (button B) triggered, and left
alone otherwise; both event flags are then cleared unconditionally. The
i32 addition is embedded as plain integer addition, which is exact on
every state whose counter stays inside the i32 range; the reachability
claim about STEPS values is restricted to that range. -/
def gpioteStep (s : SynthState) (buttonapressed buttonbpressed : Bool) : SynthState × EdgeOut :=
  let steps :=
    match buttonapressed, buttonbpressed with
    | false, false => s.steps
    | true, false => s.steps + 1
    | false, true => s.steps - 1
    | true, true => s.steps
  ({ s with steps := steps }, { channel0_cleared := true, channel1_cleared := true })

/-- Effects of the RTC0 handler on the hardware: the u32 period handed to
set_period, the value handed to set_duty_on_common, and whether the Tick
event was cleared. -/
structure TickOut where
  period_hz : ℕ
  duty : ℕ
  tick_cleared : Bool

/-- note_to_freq (lines 44 to 55) in full: it reads NOTE, OCTAVE and
PITCH_BEND and returns 440 * a ^ (note + 12 * octave + 2 * pitch_bend),
where semitone_bend = 2 * pitch_bend is line 50. The f32 powf is
idealized as exact real exponentiation; at pitch_bend = 0 the value is
the rational freq_at (note + 12 * octave), see note_to_freq_zero_bend. -/
noncomputable def note_to_freq (note octave : ℤ) (pitch_bend : ℚ) : ℝ :=
  440 * (a : ℝ) ^ ((note : ℝ) + 12 * (octave : ℝ) + 2 * (pitch_bend : ℝ))

/-- The RTC0 tick interrupt handler (lines 125 to 146): run steps_to_note,
then note_to_freq on the state those writes leave (including the
2 * pitch_bend term of the exponent), program the speaker period with the
frequency cast to u32 (truncation toward zero, embedded as floor since
the frequency is positive), program the duty to max_duty / 2 with
max_duty = 5000 (set at line 214), and clear the Tick event. A panic
inside steps_to_note is none here. -/
noncomputable def rtc0Step (s : SynthState) : Option (SynthState × TickOut) :=
  (steps_to_note s.steps s.use_minor_scale).map (fun p =>
    ({ s with note := p.1, octave := p.2 },
     { period_hz := (Int.floor (note_to_freq p.1 p.2 s.pitch_bend)).toNat,
       duty := 5000 / 2,
       tick_cleared := true }))

/-- The accelerometer branch of the main loop (lines 230 to 244): when a
new sample with x component sample_x arrives, new_freq = sample_x / 8192,
and PITCH_BEND is overwritten with it exactly when fabsf of the sample
exceeds 100. The i32 sample cast to f32 and its f32 absolute value are
exact for every magnitude below 2 ^ 24, so the comparison is embedded on
the integer through Int.natAbs. -/
def sampleStep (s : SynthState) (sample_x : ℤ) : SynthState :=
  let new_freq : ℚ := (sample_x : ℚ) / 8192
  if 100 < sample_x.natAbs then { s with pitch_bend := new_freq } else s

/-- The three asynchronous inputs of the system: an edge interrupt with the
two channel trigger flags, a timer tick, and an accelerometer sample. -/
inductive Event where
  | edge (buttonapressed buttonbpressed : Bool)
  | tick
  | sample (sample_x : ℤ)

/-- One interleaving step of the system: the handler the event triggers,
applied under the critical section. none corresponds to a panic. -/
noncomputable def applyEvent (s : SynthState) : Event → Option SynthState
  | Event.edge ba bb => some (gpioteStep s ba bb).1
  | Event.tick => (rtc0Step s).map Prod.fst
  | Event.sample x => some (sampleStep s x)

/-- States the program can be in: the start state and everything an
event sequence produces from it. -/
inductive Reachable : SynthState → Prop where
  | init : Reachable initState
  | step {s s' : SynthState} {e : Event} : Reachable s → applyEvent s e = some s' → Reachable s'

/-- Ghost extension of the state for the debounce claims: the specification
posits a DebounceCounter, but the source declares no such variable, so no
handler can read or write one. The ghost field makes the sentences about
the counter statable against the code. -/
structure GhostState extends SynthState where
  debounce : ℕ

/-- The RTC0 handler on the ghost-extended state: it acts as rtc0Step on
the real globals; the ghost debounce field is untouched because the source
contains no corresponding variable, hence no code that could decrement
it. -/
noncomputable def rtc0GhostStep (g : GhostState) : Option (GhostState × TickOut) :=
  (rtc0Step g.toSynthState).map (fun p =>
    ({ toSynthState := p.1, debounce := g.debounce }, p.2))

/-- Single accepted increment press: the state part of the GPIOTE handler
on a channel 0 trigger. -/
def pressA (s : SynthState) : SynthState := (gpioteStep s true false).1

/-- Single accepted decrement press: the state part of the GPIOTE handler
on a channel 1 trigger. -/
def pressB (s : SynthState) : SynthState := (gpioteStep s false true).1

/- ===== helper lemmas about truncated division and the degree ===== -/

theorem tmod_neg_left (x y : ℤ) : Int.tmod (-x) y = -(Int.tmod x y) := by
  rw [Int.tmod_def, Int.tmod_def, Int.neg_tdiv]
  ring

theorem tmod_shift (x : ℤ) (h : 0 ≤ x ∨ x ≤ -7) : Int.tmod (x + 7) 7 = Int.tmod x 7 := by
  rcases h with h | h
  · rw [Int.tmod_eq_emod (by omega) (by norm_num), Int.tmod_eq_emod h (by norm_num)]
    omega
  · have hm : x = -(-x) := by ring
    have h7 : x + 7 = -(-x - 7) := by ring
    rw [h7, tmod_neg_left, Int.tmod_eq_emod (by omega) (by norm_num)]
    rw [hm, tmod_neg_left, Int.tmod_eq_emod (by omega) (by norm_num)]
    omega

theorem tdiv_shift (x : ℤ) (h : 0 ≤ x ∨ x ≤ -7) : Int.tdiv (x + 7) 7 = Int.tdiv x 7 + 1 := by
  rcases h with h | h
  · rw [Int.tdiv_eq_ediv (by omega) (by norm_num), Int.tdiv_eq_ediv h (by norm_num)]
    omega
  · have hm : x = -(-x) := by ring
    have h7 : x + 7 = -(-x - 7) := by ring
    rw [h7, Int.neg_tdiv, Int.tdiv_eq_ediv (by omega) (by norm_num)]
    conv_rhs => rw [hm]
    rw [Int.neg_tdiv, Int.tdiv_eq_ediv (by omega) (by norm_num)]
    omega

theorem tmod_range (x : ℤ) : -6 ≤ Int.tmod x 7 ∧ Int.tmod x 7 ≤ 6 := by
  rcases le_or_lt 0 x with h | h
  · rw [Int.tmod_eq_emod h (by norm_num)]
    omega
  · have hm : x = -(-x) := by ring
    rw [hm, tmod_neg_left, Int.tmod_eq_emod (by omega) (by norm_num)]
    omega

theorem stepDegree_mem (steps : ℤ) : 0 ≤ stepDegree steps ∧ stepDegree steps ≤ 6 := by
  have h := tmod_range steps
  simp only [stepDegree]
  split <;> omega

theorem stepDegree_shift (steps : ℤ) (h : 0 ≤ steps ∨ steps ≤ -7) :
    stepDegree (steps + 7) = stepDegree steps := by
  simp only [stepDegree, tmod_shift steps h]

/- ===== helper lemmas about the tables and totality ===== -/

theorem table_total (m : Bool) (d : ℤ) (h0 : 0 ≤ d) (h6 : d ≤ 6) :
    ∃ n : ℤ, (if m then minorNote d else majorNote d) = some n := by
  interval_cases d <;> cases m <;> exact ⟨_, rfl⟩

theorem steps_to_note_total (steps : ℤ) (m : Bool) :
    ∃ note octave : ℤ, steps_to_note steps m = some (note, octave) ∧
      (if m then minorNote (stepDegree steps) else majorNote (stepDegree steps)) = some note ∧
      octave = Int.tdiv steps 7 := by
  obtain ⟨n, hn⟩ := table_total m (stepDegree steps) (stepDegree_mem steps).1 (stepDegree_mem steps).2
  refine ⟨n, Int.tdiv steps 7, ?_, hn, rfl⟩
  simp only [steps_to_note, hn, Option.map_some']

/- ===== helper lemmas about the frequency ===== -/

theorem a_pos : (0 : ℚ) < a := by norm_num [a]

theorem freq_at_pos (e : ℤ) : 0 < freq_at e := by
  have := a_pos
  unfold freq_at
  positivity

theorem freq_at_add_twelve (e : ℤ) : freq_at (e + 12) = freq_at e * a ^ (12 : ℤ) := by
  unfold freq_at
  rw [zpow_add₀ (ne_of_gt a_pos)]
  ring

theorem note_to_freq_zero_bend (note octave : ℤ) :
    note_to_freq note octave 0 = ((freq_at (note + 12 * octave) : ℚ) : ℝ) := by
  unfold note_to_freq freq_at
  rw [show ((note : ℝ) + 12 * (octave : ℝ) + 2 * ((0 : ℚ) : ℝ)) =
      (((note + 12 * octave : ℤ) : ℝ)) by push_cast; ring,
    Real.rpow_intCast]
  push_cast
  ring

theorem a_twelve_close : |a ^ (12 : ℤ) - 2| ≤ 2 / 1000000 := by
  rw [abs_le, show ((12 : ℤ)) = ((12 : ℕ) : ℤ) by norm_num, zpow_natCast]
  unfold a
  constructor
  · norm_num
  · norm_num

/- ===== claims about the synthesizer ===== -/

/-- Claim C4: with step_count = 0 and pitch_bend = 0 the synthesized
frequency is exactly 440 Hz, for both scale modes: the degree is 0, both
tables map it to semitone offset 0, the octave is 0, and 440 * a ^ 0
equals 440 with no rounding at all. -/
theorem c4_theorem : synthesize0 0 true = some 440 ∧ synthesize0 0 false = some 440 := by
  have h1 : steps_to_note 0 true = some (0, 0) := by decide
  have h2 : steps_to_note 0 false = some (0, 0) := by decide
  constructor
  · rw [synthesize0, h1, Option.map_some', freq_at]
    norm_num
  · rw [synthesize0, h2, Option.map_some', freq_at]
    norm_num

/-- Claim C3 (amended): for step_count that is nonnegative or at most -7,
with pitch_bend = 0 and either mode, the frequency at step_count + 7 is
twice the frequency at step_count up to a relative tolerance of one in a
million: the degree is unchanged and the truncated quotient by 7 grows by
exactly one, so the semitone exponent grows by 12, and a ^ 12 is 2 up to
the tolerance. For step_count between -6 and -1 the property fails, see
the counterexample. -/
theorem c3_theorem (steps : ℤ) (m : Bool) (h : 0 ≤ steps ∨ steps ≤ -7) :
    ∃ f1 f2 : ℚ, synthesize0 steps m = some f1 ∧ synthesize0 (steps + 7) m = some f2 ∧
      0 < f1 ∧ |f2 - 2 * f1| ≤ 2 * f1 / 1000000 := by
  obtain ⟨n, o, hno, htab, ho⟩ := steps_to_note_total steps m
  obtain ⟨n7, o7, hno7, htab7, ho7⟩ := steps_to_note_total (steps + 7) m
  have hdeg : n7 = n := by
    rw [stepDegree_shift steps h] at htab7
    rw [htab7] at htab
    exact Option.some_injective _ htab
  have hoct : o7 = o + 1 := by rw [ho7, ho, tdiv_shift steps h]
  refine ⟨freq_at (n + 12 * o), freq_at (n7 + 12 * o7), ?_, ?_, freq_at_pos _, ?_⟩
  · rw [synthesize0, hno, Option.map_some']
  · rw [synthesize0, hno7, Option.map_some']
  · have he : n7 + 12 * o7 = (n + 12 * o) + 12 := by rw [hdeg, hoct]; ring
    rw [he, freq_at_add_twelve]
    have hpos := freq_at_pos (n + 12 * o)
    have hfac : freq_at (n + 12 * o) * a ^ (12 : ℤ) - 2 * freq_at (n + 12 * o) =
        freq_at (n + 12 * o) * (a ^ (12 : ℤ) - 2) := by ring
    rw [hfac, abs_mul, abs_of_pos hpos]
    calc freq_at (n + 12 * o) * |a ^ (12 : ℤ) - 2|
        ≤ freq_at (n + 12 * o) * (2 / 1000000) :=
          mul_le_mul_of_nonneg_left a_twelve_close (le_of_lt hpos)
      _ = 2 * freq_at (n + 12 * o) / 1000000 := by ring

/-- Witness for claim C3 at step_count = 3 in minor mode. -/
theorem c3_witness : ∃ f1 f2 : ℚ, synthesize0 3 true = some f1 ∧
    synthesize0 (3 + 7) true = some f2 ∧ 0 < f1 ∧ |f2 - 2 * f1| ≤ 2 * f1 / 1000000 :=
  c3_theorem 3 true (Or.inl (by decide))

/-- Claim C3 (counterexample): at step_count = -1 in minor mode the octave
doubling fails. The truncated remainder of -1 by 7 is -1, negated to
degree 1, so synthesize(-1) is 440 * a ^ 2 (above the reference pitch),
while synthesize(6) is 440 * a ^ 10: their ratio is a ^ 8, nowhere near 2,
and far outside the relative tolerance of one in a million. -/
theorem c3_counterexample :
    synthesize0 (-1) true = some (440 * a ^ (2 : ℤ)) ∧
    synthesize0 6 true = some (440 * a ^ (10 : ℤ)) ∧
    ¬ |440 * a ^ (10 : ℤ) - 2 * (440 * a ^ (2 : ℤ))| ≤ 2 * (440 * a ^ (2 : ℤ)) / 1000000 := by
  have h1 : steps_to_note (-1) true = some (2, 0) := by decide
  have h6 : steps_to_note 6 true = some (10, 0) := by decide
  refine ⟨?_, ?_, ?_⟩
  · rw [synthesize0, h1, Option.map_some', freq_at]
    norm_num
  · rw [synthesize0, h6, Option.map_some', freq_at]
    norm_num
  · rw [show ((10 : ℤ)) = ((10 : ℕ) : ℤ) by norm_num, show ((2 : ℤ)) = ((2 : ℕ) : ℤ) by norm_num,
      zpow_natCast, zpow_natCast, not_le]
    have hneg : 440 * a ^ (10 : ℕ) - 2 * (440 * a ^ (2 : ℕ)) < 0 := by
      unfold a
      norm_num
    rw [abs_of_neg hneg]
    unfold a
    norm_num

/-- Claim C8: the degree-to-semitone lookup realizes the two fixed 7-entry
tables (minor 0,2,3,5,7,8,10 and major 0,2,4,5,7,9,11) on every degree 0
to 6; the computed degree is always below 7, so the textual 8th arm
(7 maps to 12) of each match never fires, and semitone offset 12 is
reached through the octave: at steps = 7 the handler computes note 0 and
octave 1, that is offset 0 + 12 * 1. -/
theorem c8_theorem :
    (minorNote 0 = some 0 ∧ minorNote 1 = some 2 ∧ minorNote 2 = some 3 ∧
     minorNote 3 = some 5 ∧ minorNote 4 = some 7 ∧ minorNote 5 = some 8 ∧
     minorNote 6 = some 10) ∧
    (majorNote 0 = some 0 ∧ majorNote 1 = some 2 ∧ majorNote 2 = some 4 ∧
     majorNote 3 = some 5 ∧ majorNote 4 = some 7 ∧ majorNote 5 = some 9 ∧
     majorNote 6 = some 11) ∧
    (∀ steps : ℤ, stepDegree steps < 7) ∧
    steps_to_note 7 true = some (0, 1) ∧ steps_to_note 7 false = some (0, 1) := by
  refine ⟨by decide, by decide, ?_, by decide, by decide⟩
  intro steps
  have := stepDegree_mem steps
  omega

/-- Claim C9: for every step count in the i32 range the degree computed in
steps_to_note (truncated remainder by 7, negated when negative) lies
between 0 and 6, so the panic arms are unreachable, the arms mapping 7 to
12 are never taken, and steps_to_note is total. -/
theorem c9_theorem (steps : ℤ) (m : Bool) (_h1 : -(2 ^ 31) ≤ steps) (_h2 : steps < 2 ^ 31) :
    0 ≤ stepDegree steps ∧ stepDegree steps ≤ 6 ∧ (steps_to_note steps m).isSome = true := by
  obtain ⟨n, o, hno, -, -⟩ := steps_to_note_total steps m
  exact ⟨(stepDegree_mem steps).1, (stepDegree_mem steps).2, by rw [hno]; rfl⟩

/-- Witness for claim C9 at the most negative i32 value, in minor mode. -/
theorem c9_witness : 0 ≤ stepDegree (-2147483648) ∧ stepDegree (-2147483648) ≤ 6 ∧
    (steps_to_note (-2147483648) true).isSome = true :=
  c9_theorem (-2147483648) true (by decide) (by decide)

/- ===== claims about the edge handler and the sampling loop ===== -/

/-- Claim C7: on an edge-interrupt invocation, if both channels signal or
neither does, the state is unchanged (a no-op, not an error); if exactly
one signals, STEPS moves by exactly +1 for channel 0 (button A, the
increment channel) or -1 for channel 1 (button B, the decrement channel);
in every case both hardware event flags are cleared. -/
theorem c7_theorem (s : SynthState) :
    gpioteStep s false false = (s, { channel0_cleared := true, channel1_cleared := true }) ∧
    gpioteStep s true true = (s, { channel0_cleared := true, channel1_cleared := true }) ∧
    gpioteStep s true false =
      ({ s with steps := s.steps + 1 }, { channel0_cleared := true, channel1_cleared := true }) ∧
    gpioteStep s false true =
      ({ s with steps := s.steps - 1 }, { channel0_cleared := true, channel1_cleared := true }) :=
  ⟨rfl, rfl, rfl, rfl⟩

/-- Claim C6: a motion sample updates PITCH_BEND only when its absolute
value exceeds the threshold 100; at or below the threshold the whole state
is untouched. When applied, the new bend is the sample divided by 8192 and
wholesale replaces the previous value: after two accepted samples s1 then
s2 the bend is s2 / 8192, independent of s1. -/
theorem c6_theorem (s : SynthState) (x s1 s2 : ℤ) :
    (x.natAbs ≤ 100 → sampleStep s x = s) ∧
    (100 < x.natAbs → (sampleStep s x).pitch_bend = (x : ℚ) / 8192) ∧
    (100 < s1.natAbs → 100 < s2.natAbs →
      (sampleStep (sampleStep s s1) s2).pitch_bend = (s2 : ℚ) / 8192) := by
  refine ⟨fun h => ?_, fun h => ?_, fun h1 h2 => ?_⟩
  · simp only [sampleStep]
    rw [if_neg (by omega)]
  · simp only [sampleStep]
    rw [if_pos h]
  · simp only [sampleStep]
    rw [if_pos h2]

/-- Witness for claim C6: a sample of 100 is rejected, samples of 200 and
then -300 are each applied, and after the two the bend comes from the
second alone. -/
theorem c6_witness :
    sampleStep initState 100 = initState ∧
    (sampleStep initState 200).pitch_bend = ((200 : ℤ) : ℚ) / 8192 ∧
    (sampleStep (sampleStep initState 200) (-300)).pitch_bend = (((-300 : ℤ)) : ℚ) / 8192 :=
  ⟨(c6_theorem initState 100 0 0).1 (by decide),
   (c6_theorem initState 200 0 0).2.1 (by decide),
   (c6_theorem initState 0 200 (-300)).2.2 (by decide) (by decide)⟩

/- ===== helper lemmas about iterated presses and reachability ===== -/

theorem pressA_iter_steps (n : ℕ) (s : SynthState) : (pressA^[n] s).steps = s.steps + n := by
  induction n with
  | zero => simp
  | succ k ih =>
      rw [Function.iterate_succ_apply']
      show (pressA^[k] s).steps + 1 = _
      rw [ih]
      push_cast
      ring

theorem pressB_iter_steps (n : ℕ) (s : SynthState) : (pressB^[n] s).steps = s.steps - n := by
  induction n with
  | zero => simp
  | succ k ih =>
      rw [Function.iterate_succ_apply']
      show (pressB^[k] s).steps - 1 = _
      rw [ih]
      push_cast
      ring

theorem pressA_iter_reach (n : ℕ) (s : SynthState) (h : Reachable s) :
    Reachable (pressA^[n] s) := by
  induction n with
  | zero => simpa using h
  | succ k ih =>
      rw [Function.iterate_succ_apply']
      exact @Reachable.step _ _ (Event.edge true false) ih rfl

theorem pressB_iter_reach (n : ℕ) (s : SynthState) (h : Reachable s) :
    Reachable (pressB^[n] s) := by
  induction n with
  | zero => simpa using h
  | succ k ih =>
      rw [Function.iterate_succ_apply']
      exact @Reachable.step _ _ (Event.edge false true) ih rfl

/- ===== claims about debounce, clamping, the tick and the mode ===== -/

/-- Claim C1 (amended): the code maintains no debounce state at all, so no
edge event is ever suppressed: n consecutive accepted increment presses
move STEPS by exactly n, a timer tick never changes STEPS (so interleaving
ticks changes nothing), and the hardware event flags are cleared on every
invocation of the edge handler. -/
theorem c1_theorem (s : SynthState) (n : ℕ) :
    (pressA^[n] s).steps = s.steps + n ∧
    (∀ s2 : SynthState, applyEvent s Event.tick = some s2 → s2.steps = s.steps) ∧
    (gpioteStep s true false).2 = { channel0_cleared := true, channel1_cleared := true } := by
  refine ⟨pressA_iter_steps n s, fun s2 h => ?_, rfl⟩
  rcases hs : steps_to_note s.steps s.use_minor_scale with - | p
  · rw [show applyEvent s Event.tick = (rtc0Step s).map Prod.fst from rfl,
      rtc0Step, hs] at h
    simp at h
  · rw [show applyEvent s Event.tick = (rtc0Step s).map Prod.fst from rfl,
      rtc0Step, hs] at h
    simp only [Option.map_some'] at h
    rw [← Option.some_injective _ h]

/-- Witness for claim C1: two presses from the start state land at 2, and
the concrete tick from the start state keeps STEPS at 0. -/
theorem c1_witness :
    (pressA^[2] initState).steps = initState.steps + 2 ∧ initState.steps = initState.steps :=
  ⟨(c1_theorem initState 2).1, (c1_theorem initState 0).2.1 initState rfl⟩

/-- Claim C1 (counterexample): two single-channel edge events on
consecutive ticks are both reflected in STEPS. From the start state the
sequence edge, tick, edge leaves STEPS = 2, not the 1 the claim predicts
when the second edge falls inside the debounce window (the specification
names a window of 8 ticks, so one intervening tick is inside it). -/
theorem c1_counterexample :
    ((applyEvent initState (Event.edge true false)).bind (fun s1 =>
      (applyEvent s1 Event.tick).bind (fun s2 =>
        applyEvent s2 (Event.edge true false)))).map SynthState.steps = some 2 ∧
    (2 : ℤ) ≠ 1 :=
  ⟨rfl, by decide⟩

/-- Claim C2 (amended): STEPS carries no configured bound and no clamping
logic: each accepted edge event moves it by exactly one, so every value of
the i32 range, of either sign, occurs in some reachable state; in
particular nothing stops the counter at 63. The only limit is the i32
representation itself at the range extremes, not a configured clamp. The
witnessing press sequences keep the counter inside the i32 range at every
intermediate state, where the embedded addition is exact. -/
theorem c2_theorem (z : ℤ) (_h1 : -(2 ^ 31) ≤ z) (_h2 : z < 2 ^ 31) :
    ∃ s : SynthState, Reachable s ∧ s.steps = z := by
  rcases le_or_lt 0 z with hz | hz
  · refine ⟨pressA^[z.toNat] initState, pressA_iter_reach _ _ Reachable.init, ?_⟩
    rw [pressA_iter_steps]
    show (0 : ℤ) + _ = z
    omega
  · refine ⟨pressB^[(-z).toNat] initState, pressB_iter_reach _ _ Reachable.init, ?_⟩
    rw [pressB_iter_steps]
    show (0 : ℤ) - _ = z
    omega

/-- Witness for claim C2 at the value 64, just past the example bound of
the specification. -/
theorem c2_witness : ∃ s : SynthState, Reachable s ∧ s.steps = 64 :=
  c2_theorem 64 (by decide) (by decide)

/-- Claim C2 (counterexample): the state reached by 63 increment presses
from the start has STEPS = 63, the upper bound the specification offers as
example; one more increment edge yields 64, past the bound instead of
clamped at it. -/
theorem c2_counterexample :
    ∃ s : SynthState, Reachable s ∧ s.steps = 63 ∧
      ((gpioteStep s true false).1).steps = 64 ∧ (64 : ℤ) ≠ 63 := by
  refine ⟨pressA^[63] initState, pressA_iter_reach _ _ Reachable.init, ?_, ?_, by decide⟩
  · rw [pressA_iter_steps]
    show (0 : ℤ) + _ = 63
    norm_num
  · show (pressA^[63] initState).steps + 1 = 64
    rw [pressA_iter_steps]
    show (0 : ℤ) + _ + 1 = 64
    norm_num

/-- Claim C5 (amended): on every tick the handler recomputes NOTE and
OCTAVE from the current STEPS and USE_MINOR_SCALE, programs the period
from the frequency note_to_freq computes out of those values and the
current PITCH_BEND (the full exponent note + 12 * octave +
2 * pitch_bend, truncated to u32), programs the duty to the constant
max_duty / 2 = 2500 derived from no signal, clears the Tick event, leaves
STEPS, PITCH_BEND and USE_MINOR_SCALE unchanged, and decrements nothing:
the ghost debounce field, the only possible carrier of the DebounceCounter
the specification posits, is untouched. -/
theorem c5_theorem (g : GhostState) :
    ∃ note octave : ℤ,
      steps_to_note g.steps g.use_minor_scale = some (note, octave) ∧
      rtc0Step g.toSynthState = some
        ({ g.toSynthState with note := note, octave := octave },
         { period_hz := (Int.floor (note_to_freq note octave g.pitch_bend)).toNat,
           duty := 5000 / 2,
           tick_cleared := true }) ∧
      (rtc0GhostStep g).map (fun p => p.1.debounce) = some g.debounce := by
  obtain ⟨n, o, hno, -, -⟩ := steps_to_note_total g.steps g.use_minor_scale
  refine ⟨n, o, hno, ?_, ?_⟩
  · rw [rtc0Step, hno, Option.map_some']
  · rw [rtc0GhostStep, rtc0Step, hno]
    rfl

/-- Claim C5 (counterexample): a tick from the start state with the ghost
debounce counter at 5 leaves it at 5; the claim predicts a decrement to 4.
No variable of the source carries the DebounceCounter, so the tick handler
cannot decrement it. -/
theorem c5_counterexample :
    (rtc0GhostStep { toSynthState := initState, debounce := 5 }).map
      (fun p => p.1.debounce) = some 5 ∧ (5 : ℕ) ≠ 4 :=
  ⟨rfl, by decide⟩

/-- Preservation helper: no handler writes USE_MINOR_SCALE, so one
interleaving step keeps it. -/
theorem applyEvent_minor (s s2 : SynthState) (e : Event)
    (h : applyEvent s e = some s2) : s2.use_minor_scale = s.use_minor_scale := by
  cases e with
  | edge ba bb =>
      simp only [applyEvent, Option.some_inj] at h
      rw [← h]
      rfl
  | tick =>
      rcases hs : steps_to_note s.steps s.use_minor_scale with - | p
      · rw [show applyEvent s Event.tick = (rtc0Step s).map Prod.fst from rfl,
          rtc0Step, hs] at h
        simp at h
      · rw [show applyEvent s Event.tick = (rtc0Step s).map Prod.fst from rfl,
          rtc0Step, hs] at h
        simp only [Option.map_some', Option.some_inj] at h
        rw [← h]
  | sample x =>
      simp only [applyEvent, Option.some_inj] at h
      rw [← h]
      unfold sampleStep
      split <;> rfl

/-- Claim C10: nothing ever writes the scale-mode flag after its static
start value true: every reachable state has USE_MINOR_SCALE = true, and
in such a state steps_to_note consults only the minor table, so the major
branch never executes at runtime. -/
theorem c10_theorem (s : SynthState) (h : Reachable s) :
    s.use_minor_scale = true ∧
    steps_to_note s.steps s.use_minor_scale =
      (minorNote (stepDegree s.steps)).map (fun n => (n, Int.tdiv s.steps 7)) := by
  have hm : s.use_minor_scale = true := by
    induction h with
    | init => rfl
    | step hr happ ih => exact (applyEvent_minor _ _ _ happ).trans ih
  refine ⟨hm, ?_⟩
  rw [hm]
  rfl

/-- Witness for claim C10 at the start state, which is reachable by the
base rule. -/
theorem c10_witness :
    initState.use_minor_scale = true ∧
    steps_to_note initState.steps initState.use_minor_scale =
      (minorNote (stepDegree initState.steps)).map
        (fun n => (n, Int.tdiv initState.steps 7)) :=
  c10_theorem initState Reachable.init
